import Mathlib

/-!
Verification of the Qt QTM real-time protocol client (`qtm_rt/qt_protocol.py`
and `qtm_rt/qt_qrt.py`) against its natural-language specification.

The embedding is shallow: byte strings are `List Nat` (each entry one byte),
Qt signal emissions, callback invocations and socket writes are collected in an
explicit `Output` list, mutable object attributes become explicit state records
that each method maps to a new state, and Python exceptions are `Except.error`.
UTF-8 decoding of text bodies is modelled as the identity on the underlying
byte sequence (text values are represented by their encoded bytes); none of the
verified properties inspect the text content.
-/

/-- Python exceptions that the modelled code paths can raise. -/
inductive PyErr
  | valueError
  | structError
  deriving DecidableEq

/-- Decidable equality for `Except`, so that concrete runs of the fallible
modelled methods can be checked by `decide`. -/
instance instDecEqExcept {ε α : Type} [DecidableEq ε] [DecidableEq α] :
    DecidableEq (Except ε α) := fun a b =>
  match a, b with
  | Except.error e, Except.error f =>
    if h : e = f then isTrue (by rw [h])
    else isFalse (by intro hh; cases hh; exact h rfl)
  | Except.error _, Except.ok _ => isFalse (by intro hh; cases hh)
  | Except.ok _, Except.error _ => isFalse (by intro hh; cases hh)
  | Except.ok x, Except.ok y =>
    if h : x = y then isTrue (by rw [h])
    else isFalse (by intro hh; cases hh; exact h rfl)

/-- Payload of a `response` dictionary built by `_handle_packet`
(`data` key): decoded text, a raw data-packet body, or an event code. -/
inductive RData
  | text (bytes : List Nat)
  | packet (body : List Nat)
  | event (code : Nat)
  deriving DecidableEq

/-- The `response` dictionary (a `type` key and a `data` key) built by
`_handle_packet` and `_on_connected`. -/
structure Response where
  rtype : Nat
  rdata : RData
  deriving DecidableEq

/-- Observable effects of the modelled methods: invoking a queued callback,
emitting the `response_received` signal (the generic unsolicited sink),
emitting `error_occurred`, emitting `disconnected`, writing bytes to the
socket, and invoking the connection-level event callback. Callbacks are
identified by numeric ids. -/
inductive Output
  | callbackInvoked (cb : Nat) (r : Response)
  | responseSignal (r : Response)
  | errorSignal (msg : List Nat)
  | disconnectedSignal
  | socketWrite (bytes : List Nat)
  | eventCallback (cb : Nat) (code : Nat)
  deriving DecidableEq

/-- Mutable attributes of `QtQTMProtocol` (`__init__`, qt_protocol.py lines
34–36): the receive buffer, the FIFO callback queue (an entry is `none` when a
command was sent with no callback, the placeholder of line 87), and the
connected flag. -/
structure ProtState where
  buffer : List Nat
  callback_queue : List (Option Nat)
  connected_flag : Bool
  deriving DecidableEq

/-- Mutable event-waiter attributes of `QtQRTConnection` (`__init__`,
qt_qrt.py lines 53–54): the awaited event code (if a specific one) and the
registered event callback. -/
structure ConnState where
  expected_event : Option Nat
  event_callback : Option Nat
  deriving DecidableEq

/-- Modelled from the spec: `RTheader` lives in `qtm_rt/packet.py`, which is
not under `src/`; per spec §3/§6 the frame header is 8 bytes (two little-endian
u32 fields), so `RTheader.size = 8`. -/
def rtHeaderSize : Nat := 8

/-- Little-endian 4-byte encoding of an unsigned 32-bit value, as produced by
`struct.pack` with format `I`. -/
def u32le (n : Nat) : List Nat :=
  [n % 256, n / 256 % 256, n / 65536 % 256, n / 16777216 % 256]

/-- Little-endian u32 read of the first four bytes of a buffer, as performed by
`struct.unpack` with format `I` (only applied where at least 4 bytes exist). -/
def leU32 (b : List Nat) : Nat :=
  match b with
  | b0 :: b1 :: b2 :: b3 :: _ => b0 + 256 * b1 + 65536 * b2 + 16777216 * b3
  | _ => 0

/-- Byte-level model of the decode-as-UTF-8-then-strip-trailing-NULs step
applied to text bodies: drop all trailing zero bytes. -/
def rstripNull (b : List Nat) : List Nat :=
  (b.reverse.dropWhile (fun x => x == 0)).reverse

/-- Modelled from the spec: the file `qtm_rt/packet.py` of this repository is not under
`src/`. `QRTPacketType` is the packet-type enumeration of the QTM RT protocol
(spec §3: Error, Command, XML, Data, Event, and other codes the server may
send); its members carry the wire codes 0–9 (Error=0, Command=1, XML=2, Data=3,
NoMoreData=4, C3DFile=5, Event=6, Discover=7, QTMFile=8, None=9). The Python
`Enum` conversion `QRTPacketType(c)` performed at qt_protocol.py line 164
raises `ValueError` when `c` is not a member code, modelled by `none`. -/
def qrtPacketTypeOfCode (c : Nat) : Option Nat :=
  if c < 10 then some c else none

/-- Wire code of `QRTPacketType.PacketError`. -/
def packetErrorValue : Nat := 0

/-- Wire code of `QRTPacketType.PacketCommand`. -/
def packetCommandValue : Nat := 1

/-- Wire code of `QRTPacketType.PacketXML`. -/
def packetXMLValue : Nat := 2

/-- Wire code of `QRTPacketType.PacketData`. -/
def packetDataValue : Nat := 3

/-- Wire code of `QRTPacketType.PacketEvent`. -/
def packetEventValue : Nat := 6

/-- Modelled from the spec: `QRTEvent` also lives in the missing
`qtm_rt/packet.py`; per the event enumeration of spec §6 its member codes are
1–16, and the Python `Enum` conversion `QRTEvent(c)` (qt_protocol.py line 197,
qt_qrt.py line 149) raises `ValueError` outside that range. -/
def qrtEventValid (c : Nat) : Bool :=
  decide (1 ≤ c ∧ c ≤ 16)

/-- Embedding of `QtQTMProtocol._deliver_callback` (qt_protocol.py lines
203–211) acting on the callback queue: pop the head; a real callback is
invoked with the response, a `None` placeholder or an empty queue forwards the
response to the `response_received` sink. -/
def deliverCallback (q : List (Option Nat)) (r : Response) :
    List (Option Nat) × List Output :=
  match q with
  | [] => ([], [Output.responseSignal r])
  | some cb :: rest => (rest, [Output.callbackInvoked cb r])
  | none :: rest => (rest, [Output.responseSignal r])

/-- Embedding of `QtQTMProtocol._handle_packet` (qt_protocol.py lines
163–201). `data` is the whole packet (`buffer[:packet_size]`, header
included). The enum conversion of line 164 raises `ValueError` for non-member
codes. Error frames emit `error_occurred` and then deliver to the queue;
Command and XML frames deliver to the queue; Data frames are forwarded to the
sink (the `QRTPacket` decoder of the missing `packet.py` is modelled from the
spec as carrying the raw body — no claim inspects decoded components); Event
frames with a non-empty body emit the event code to the sink (after the
`QRTEvent` conversion of line 197, which raises on invalid codes), and with an
empty body do nothing; remaining member codes only log a warning. -/
def handlePacket (s : ProtState) (ptype : Nat) (data : List Nat) :
    Except PyErr (ProtState × List Output) :=
  match qrtPacketTypeOfCode ptype with
  | none => Except.error PyErr.valueError
  | some t =>
    if t = packetErrorValue then
      let msg := rstripNull (data.drop rtHeaderSize)
      let d := deliverCallback s.callback_queue ⟨t, RData.text msg⟩
      Except.ok ({ s with callback_queue := d.1 }, Output.errorSignal msg :: d.2)
    else if t = packetCommandValue then
      let msg := rstripNull (data.drop rtHeaderSize)
      let d := deliverCallback s.callback_queue ⟨t, RData.text msg⟩
      Except.ok ({ s with callback_queue := d.1 }, d.2)
    else if t = packetXMLValue then
      let msg := rstripNull (data.drop rtHeaderSize)
      let d := deliverCallback s.callback_queue ⟨t, RData.text msg⟩
      Except.ok ({ s with callback_queue := d.1 }, d.2)
    else if t = packetDataValue then
      Except.ok (s, [Output.responseSignal ⟨t, RData.packet (data.drop rtHeaderSize)⟩])
    else if t = packetEventValue then
      match data.drop rtHeaderSize with
      | [] => Except.ok (s, [])
      | c :: _ =>
        if qrtEventValid c then
          Except.ok (s, [Output.responseSignal ⟨t, RData.event c⟩])
        else
          Except.error PyErr.valueError
    else
      Except.ok (s, [])

/-- Embedding of `QtQTMProtocol.send_command` (qt_protocol.py lines 65–87):
when not connected, log and return (no write, no queue change); otherwise
write header plus UTF-8 command bytes plus one NUL, with
`size = RTheader.size + len(command_bytes) + 1`, and append the callback (or a
`None` placeholder) to the queue. `struct.pack` with format `I` raises for
values at or above 2^32, modelled as `structError`. -/
def sendCommand (s : ProtState) (cmd : List Nat) (cb : Option Nat) :
    Except PyErr (ProtState × List Output) :=
  if s.connected_flag = false then
    Except.ok (s, [])
  else
    let size := rtHeaderSize + cmd.length + 1
    if size < 4294967296 then
      let pkt := u32le size ++ u32le packetCommandValue ++ cmd ++ [0]
      Except.ok ({ s with callback_queue := s.callback_queue ++ [cb] },
        [Output.socketWrite pkt])
    else
      Except.error PyErr.structError

/-- Embedding of `QtQTMProtocol.send_xml` (qt_protocol.py lines 89–111):
as `send_command` but the NUL byte is appended to the body first and
`size = RTheader.size + len(xml_bytes)`. -/
def sendXml (s : ProtState) (xml : List Nat) (cb : Option Nat) :
    Except PyErr (ProtState × List Output) :=
  if s.connected_flag = false then
    Except.ok (s, [])
  else
    let body := xml ++ [0]
    let size := rtHeaderSize + body.length
    if size < 4294967296 then
      let pkt := u32le size ++ u32le packetXMLValue ++ body
      Except.ok ({ s with callback_queue := s.callback_queue ++ [cb] },
        [Output.socketWrite pkt])
    else
      Except.error PyErr.structError

/-- Embedding of the framing loop of `QtQTMProtocol._process_buffer`
(qt_protocol.py lines 147–161): repeatedly, if fewer than `RTheader.size`
bytes are buffered stop; read `packet_size` and `packet_type` as two
little-endian u32 fields; if fewer than `packet_size` bytes are buffered stop;
otherwise hand `(packet_type, buffer[:packet_size])` to `_handle_packet` and
drop `packet_size` bytes. The result lists the `(packet_type, packet_data)`
arguments of the `_handle_packet` calls, in call order, together with the
remaining buffer; the dispatch side effects of `_handle_packet` are treated
separately by `handlePacket`. The unbounded `while True` loop is given
explicit fuel; `none` means the loop ran past the fuel bound. -/
def processBuffer : Nat → List Nat → Option (List (Nat × List Nat) × List Nat)
  | 0, _ => none
  | Nat.succ fuel, buf =>
    if buf.length < rtHeaderSize then
      some ([], buf)
    else
      let size := leU32 (buf.take 4)
      let ptype := leU32 ((buf.drop 4).take 4)
      if buf.length < size then
        some ([], buf)
      else
        match processBuffer fuel (buf.drop size) with
        | none => none
        | some (out, rest) => some ((ptype, buf.take size) :: out, rest)

/-- One iteration of `QtQTMProtocol._on_ready_read` (qt_protocol.py lines
140–145): append the newly read chunk to the buffer and run
`_process_buffer`. The fuel bound `buffer length + 1` exceeds the greatest
possible number of loop iterations on a well-formed stream (each extracted
frame consumes at least 8 bytes). -/
def feedChunk (buf chunk : List Nat) : Option (List (Nat × List Nat) × List Nat) :=
  processBuffer (buf.length + chunk.length + 1) (buf ++ chunk)

/-- Repeated `_on_ready_read` over a sequence of socket reads, accumulating
the extracted frames in order and threading the remaining buffer. -/
def feedChunks : List (List Nat) → List Nat → Option (List (Nat × List Nat) × List Nat)
  | [], buf => some ([], buf)
  | c :: cs, buf =>
    match feedChunk buf c with
    | none => none
    | some (out, rest) =>
      match feedChunks cs rest with
      | none => none
      | some (out2, fin) => some (out ++ out2, fin)

/-- A wire frame: a packet-type code and a body. -/
structure Frame where
  ptype : Nat
  body : List Nat
  deriving DecidableEq

/-- A frame is well formed when both header fields fit in an unsigned 32-bit
field (spec §3: `total_size >= 8` holds by construction, the size field being
`8 + body length`). -/
def validFrame (f : Frame) : Prop :=
  f.ptype < 4294967296 ∧ rtHeaderSize + f.body.length < 4294967296

instance (f : Frame) : Decidable (validFrame f) := by
  unfold validFrame
  infer_instance

/-- Wire encoding of one frame (spec §6): little-endian u32 total size
(header included), little-endian u32 type code, body. -/
def encodeFrame (f : Frame) : List Nat :=
  u32le (rtHeaderSize + f.body.length) ++ u32le f.ptype ++ f.body

/-- Wire encoding of a sequence of back-to-back frames. -/
def encodeFrames : List Frame → List Nat
  | [] => []
  | f :: fs => encodeFrame f ++ encodeFrames fs

/-- The `(packet_type, packet_data)` pair `_process_buffer` hands to
`_handle_packet` for a frame: the type code and the full encoded frame
(`buffer[:packet_size]` includes the header). -/
def frameOut (f : Frame) : Nat × List Nat :=
  (f.ptype, encodeFrame f)

/-- Concatenation of a sequence of received byte chunks. -/
def joinChunks : List (List Nat) → List Nat
  | [] => []
  | c :: cs => c ++ joinChunks cs

/-- Embedding of `QtQRTConnection.await_event` (qt_qrt.py lines 135–146):
store the awaited event and the callback, overwriting any previous
registration. The `timeout` argument is accepted but unused by the code
(line 146: timeout handling is not implemented). -/
def awaitEvent (c : ConnState) (event : Option Nat) (timeout : Nat)
    (cb : Option Nat) : ConnState :=
  { c with expected_event := event, event_callback := cb }

/-- Embedding of `QtQRTConnection._on_event_received` (qt_qrt.py lines
148–155): convert the code through `QRTEvent` (raising on invalid codes); if
no specific event is expected or the expected event matches, invoke the stored
callback (if any) with the code and clear both fields; otherwise leave the
state unchanged. -/
def onEventReceived (c : ConnState) (eventType : Nat) :
    Except PyErr (ConnState × List Output) :=
  if qrtEventValid eventType then
    if c.expected_event = none ∨ c.expected_event = some eventType then
      match c.event_callback with
      | some cb => Except.ok (⟨none, none⟩, [Output.eventCallback cb eventType])
      | none => Except.ok (⟨none, none⟩, [])
    else
      Except.ok (c, [])
  else
    Except.error PyErr.valueError

/-- Embedding of disconnect handling: `QtQTMProtocol._on_disconnected`
(qt_protocol.py lines 130–133) clears the connected flag and emits the
`disconnected` signal, which `QtQRTConnection._setup_signals` (qt_qrt.py line
61) merely forwards; no handler touches the callback queue or the event-waiter
state. -/
def onDisconnected (p : ProtState) (c : ConnState) :
    (ProtState × ConnState) × List Output :=
  (({ p with connected_flag := false }, c), [Output.disconnectedSignal])

/-- The `response` dictionary `_handle_packet` builds for a text-kind frame
(Error, Command or XML): the type code and the NUL-stripped body. -/
def textResponse (t : Nat) (data : List Nat) : Response :=
  ⟨t, RData.text (rstripNull (data.drop rtHeaderSize))⟩

/-- Outputs emitted before queue delivery: an Error frame first emits the
`error_occurred` signal (qt_protocol.py line 176); Command and XML frames emit
nothing before delivery. -/
def errorPrefixOutputs (t : Nat) (data : List Nat) : List Output :=
  if t = packetErrorValue then
    [Output.errorSignal (rstripNull (data.drop rtHeaderSize))]
  else
    []

theorem u32le_length (n : Nat) : (u32le n).length = 4 := rfl

theorem leU32_u32le (n : Nat) (h : n < 4294967296) : leU32 (u32le n) = n := by
  simp only [u32le, leU32]
  omega

theorem take4_u32le_append (n : Nat) (rest : List Nat) :
    (u32le n ++ rest).take 4 = u32le n := rfl

theorem drop4_u32le_append (n : Nat) (rest : List Nat) :
    (u32le n ++ rest).drop 4 = rest := rfl

theorem encodeFrame_length (f : Frame) :
    (encodeFrame f).length = rtHeaderSize + f.body.length := by
  simp [encodeFrame, u32le, rtHeaderSize]
  omega

theorem encodeFrames_cons (f : Frame) (fs : List Frame) :
    encodeFrames (f :: fs) =
      u32le (rtHeaderSize + f.body.length) ++
        (u32le f.ptype ++ (f.body ++ encodeFrames fs)) := by
  simp [encodeFrames, encodeFrame, List.append_assoc]

theorem length_le_length_encodeFrames :
    ∀ fs : List Frame, fs.length ≤ (encodeFrames fs).length
  | [] => by simp [encodeFrames]
  | f :: fs => by
    rw [encodeFrames, List.length_append, encodeFrame_length]
    have := length_le_length_encodeFrames fs
    simp only [List.length_cons, rtHeaderSize]
    omega

/-- A buffer on which the framing loop stops without extracting a frame:
either fewer than 8 bytes are buffered, or the declared packet size exceeds
the buffered length. -/
def IncompleteBuf (p : List Nat) : Prop :=
  p.length < rtHeaderSize ∨ p.length < leU32 (p.take 4)

theorem processBuffer_incomplete (k : Nat) (p : List Nat) (hp : IncompleteBuf p) :
    processBuffer (k + 1) p = some ([], p) := by
  rcases hp with h | h
  · simp only [processBuffer]
    rw [if_pos h]
  · by_cases h8 : p.length < rtHeaderSize
    · simp only [processBuffer]
      rw [if_pos h8]
    · simp only [processBuffer]
      rw [if_neg h8, if_pos h]

theorem processBuffer_step (k : Nat) (buf : List Nat) (f : Frame) (tail : List Nat)
    (hbuf : buf = encodeFrame f ++ tail) (hvf : validFrame f) :
    processBuffer (k + 1) buf =
      match processBuffer k tail with
      | none => none
      | some (out, rest) => some (frameOut f :: out, rest) := by
  obtain ⟨hpt, hS⟩ := hvf
  have hA : buf = u32le (rtHeaderSize + f.body.length) ++
      (u32le f.ptype ++ (f.body ++ tail)) := by
    rw [hbuf]
    simp [encodeFrame, List.append_assoc]
  have htake4 : buf.take 4 = u32le (rtHeaderSize + f.body.length) := by
    rw [hA]
    exact take4_u32le_append _ _
  have hsize : leU32 (buf.take 4) = rtHeaderSize + f.body.length := by
    rw [htake4, leU32_u32le _ hS]
  have hlen : buf.length = (rtHeaderSize + f.body.length) + tail.length := by
    rw [hbuf, List.length_append, encodeFrame_length]
  have hcond1 : ¬ buf.length < rtHeaderSize := by
    rw [hlen]
    simp only [rtHeaderSize]
    omega
  have hcond2 : ¬ buf.length < leU32 (buf.take 4) := by
    rw [hsize, hlen]
    omega
  have hptype : leU32 ((buf.drop 4).take 4) = f.ptype := by
    rw [hA, drop4_u32le_append, take4_u32le_append, leU32_u32le _ hpt]
  have htakeS : buf.take (leU32 (buf.take 4)) = encodeFrame f := by
    rw [hsize, hbuf, ← encodeFrame_length f,
      List.take_append_of_le_length (le_refl _), List.take_length]
  have hdropS : buf.drop (leU32 (buf.take 4)) = tail := by
    rw [hsize, hbuf, ← encodeFrame_length f,
      List.drop_append_of_le_length (le_refl _), List.drop_length, List.nil_append]
  simp only [processBuffer]
  rw [if_neg hcond1, if_neg hcond2]
  simp only [hdropS, hptype, htakeS, frameOut]

theorem processBuffer_frames :
    ∀ (fs : List Frame) (p : List Nat) (fuel : Nat),
    (∀ f ∈ fs, validFrame f) → IncompleteBuf p → fs.length < fuel →
    processBuffer fuel (encodeFrames fs ++ p) = some (List.map frameOut fs, p)
  | [], p, fuel, _, hp, hf => by
    cases fuel with
    | zero => exact absurd hf (by omega)
    | succ k =>
      have h0 : encodeFrames [] ++ p = p := by simp [encodeFrames]
      rw [h0, processBuffer_incomplete k p hp]
      simp
  | f :: fs, p, fuel, hv, hp, hf => by
    cases fuel with
    | zero => exact absurd hf (by omega)
    | succ k =>
      have hstep := processBuffer_step k (encodeFrames (f :: fs) ++ p) f
        (encodeFrames fs ++ p) (by simp [encodeFrames, List.append_assoc])
        (hv f (by simp))
      have hk : fs.length < k := by
        simp only [List.length_cons] at hf
        omega
      rw [hstep, processBuffer_frames fs p k
        (fun g hg => hv g (List.mem_cons_of_mem _ hg)) hp hk]
      rfl

theorem encodeFrames_not_incomplete (f : Frame) (fs : List Frame)
    (hvf : validFrame f) : ¬ IncompleteBuf (encodeFrames (f :: fs)) := by
  intro h
  have hl : (encodeFrames (f :: fs)).length =
      (rtHeaderSize + f.body.length) + (encodeFrames fs).length := by
    rw [encodeFrames, List.length_append, encodeFrame_length]
  have ht : (encodeFrames (f :: fs)).take 4 = u32le (rtHeaderSize + f.body.length) := by
    rw [encodeFrames_cons]
    exact take4_u32le_append _ _
  rcases h with h | h
  · rw [hl] at h
    simp only [rtHeaderSize] at h
    omega
  · rw [ht, leU32_u32le _ hvf.2, hl] at h
    omega

theorem encodeFrames_split :
    ∀ (fs : List Frame), (∀ f ∈ fs, validFrame f) →
    ∀ (q r : List Nat), q ++ r = encodeFrames fs →
    ∃ g h rem, fs = g ++ h ∧ q = encodeFrames g ++ rem ∧ IncompleteBuf rem ∧
      rem ++ r = encodeFrames h
  | [], _, q, r, hqr => by
    have hq : q = [] := by
      have h0 : q ++ r = [] := by simpa [encodeFrames] using hqr
      exact (List.append_eq_nil.mp h0).1
    refine ⟨[], [], [], by simp, by simp [encodeFrames, hq], ?_, ?_⟩
    · exact Or.inl (by simp [rtHeaderSize])
    · simpa [hq] using hqr
  | f :: fs, hv, q, r, hqr => by
    by_cases hql : q.length < (encodeFrame f).length
    · refine ⟨[], f :: fs, q, by simp, by simp [encodeFrames], ?_, hqr⟩
      by_cases h8 : q.length < rtHeaderSize
      · exact Or.inl h8
      · right
        have h4 : 4 ≤ q.length := by
          simp only [rtHeaderSize] at h8
          omega
        have ht : q.take 4 = (q ++ r).take 4 :=
          (List.take_append_of_le_length h4).symm
        have ht2 : (encodeFrames (f :: fs)).take 4 =
            u32le (rtHeaderSize + f.body.length) := by
          rw [encodeFrames_cons]
          exact take4_u32le_append _ _
        rw [ht, hqr, ht2, leU32_u32le _ (hv f (by simp)).2]
        rw [encodeFrame_length] at hql
        exact hql
    · have hfl : (encodeFrame f).length ≤ q.length := Nat.le_of_not_lt hql
      have hqtake : q.take (encodeFrame f).length = encodeFrame f := by
        have h1 : (q ++ r).take (encodeFrame f).length =
            q.take (encodeFrame f).length := List.take_append_of_le_length hfl
        have h2 : (q ++ r).take (encodeFrame f).length = encodeFrame f := by
          rw [hqr, encodeFrames, List.take_append_of_le_length (le_refl _),
            List.take_length]
        rw [← h1, h2]
      have hqdrop : q.drop (encodeFrame f).length ++ r = encodeFrames fs := by
        have h1 : (q ++ r).drop (encodeFrame f).length =
            q.drop (encodeFrame f).length ++ r := List.drop_append_of_le_length hfl
        have h2 : (q ++ r).drop (encodeFrame f).length = encodeFrames fs := by
          rw [hqr, encodeFrames, List.drop_append_of_le_length (le_refl _),
            List.drop_length, List.nil_append]
        rw [← h1, h2]
      obtain ⟨g, h, rem, hfs, hq2, hinc, hrest⟩ :=
        encodeFrames_split fs (fun x hx => hv x (List.mem_cons_of_mem _ hx))
          (q.drop (encodeFrame f).length) r hqdrop
      refine ⟨f :: g, h, rem, by simp [hfs], ?_, hinc, hrest⟩
      calc q = q.take (encodeFrame f).length ++ q.drop (encodeFrame f).length :=
            (List.take_append_drop _ _).symm
        _ = encodeFrame f ++ (encodeFrames g ++ rem) := by rw [hqtake, hq2]
        _ = encodeFrames (f :: g) ++ rem := by
            rw [encodeFrames, List.append_assoc]

theorem feedChunks_frames :
    ∀ (cs : List (List Nat)) (fs : List Frame) (p : List Nat),
    (∀ f ∈ fs, validFrame f) → IncompleteBuf p →
    p ++ joinChunks cs = encodeFrames fs →
    feedChunks cs p = some (List.map frameOut fs, [])
  | [], fs, p, hv, hp, heq => by
    rw [joinChunks, List.append_nil] at heq
    cases fs with
    | nil =>
      have hp0 : p = [] := by simpa [encodeFrames] using heq
      simp [feedChunks, hp0]
    | cons f fs =>
      exact absurd (heq ▸ hp) (encodeFrames_not_incomplete f fs (hv f (by simp)))
  | c :: cs, fs, p, hv, hp, heq => by
    have hb : (p ++ c) ++ joinChunks cs = encodeFrames fs := by
      rw [List.append_assoc]
      rw [joinChunks] at heq
      exact heq
    obtain ⟨g, h, rem, hfs, hq, hinc, hrest⟩ :=
      encodeFrames_split fs hv (p ++ c) (joinChunks cs) hb
    have hgv : ∀ x ∈ g, validFrame x := fun x hx =>
      hv x (by rw [hfs]; exact List.mem_append_left _ hx)
    have hhv : ∀ x ∈ h, validFrame x := fun x hx =>
      hv x (by rw [hfs]; exact List.mem_append_right _ hx)
    have hglen : g.length < p.length + c.length + 1 := by
      have h1 := length_le_length_encodeFrames g
      have h2 : (encodeFrames g).length ≤ (p ++ c).length := by
        rw [hq, List.length_append]
        omega
      rw [List.length_append] at h2
      omega
    have hfeed : feedChunk p c = some (List.map frameOut g, rem) := by
      rw [feedChunk, hq]
      exact processBuffer_frames g rem (p.length + c.length + 1) hgv hinc hglen
    have hrec : feedChunks cs rem = some (List.map frameOut h, []) :=
      feedChunks_frames cs h rem hhv hinc hrest
    simp only [feedChunks, hfeed, hrec, hfs, List.map_append]

theorem incomplete_take_encodeFrame (f : Frame) (k : Nat) (hvf : validFrame f)
    (hk : k < (encodeFrame f).length) : IncompleteBuf ((encodeFrame f).take k) := by
  have hlt : ((encodeFrame f).take k).length = k := by
    rw [List.length_take]
    omega
  by_cases h8 : k < rtHeaderSize
  · exact Or.inl (by rw [hlt]; exact h8)
  · right
    rw [hlt]
    have ht : ((encodeFrame f).take k).take 4 = (encodeFrame f).take 4 := by
      rw [List.take_take]
      congr 1
      simp only [rtHeaderSize] at h8
      omega
    have ht4 : (encodeFrame f).take 4 = u32le (rtHeaderSize + f.body.length) := by
      rw [encodeFrame, List.append_assoc]
      exact take4_u32le_append _ _
    rw [ht, ht4, leU32_u32le _ hvf.2, ← encodeFrame_length f]
    exact hk

/-- C2: for every sequence of raw byte chunks whose concatenation is a valid
sequence of N complete frames, feeding the chunks to the frame reader in any
split yields the same N frames (type code plus full frame bytes), in the same
order, with nothing left buffered; a trailing proper prefix of a further frame
is left buffered with no frame emitted before all of its declared total_size
bytes are present; and fewer than 8 buffered bytes emits nothing. -/
theorem c2_frame_reader_split_invariance
    (cs : List (List Nat)) (fs g : List Frame) (f : Frame) (k : Nat)
    (small : List Nat) (fuel : Nat)
    (hv : ∀ x ∈ fs, validFrame x) (heq : joinChunks cs = encodeFrames fs)
    (hg : ∀ x ∈ g, validFrame x) (hf : validFrame f)
    (hk : k < (encodeFrame f).length) (hsmall : small.length < 8) :
    feedChunks cs [] = some (List.map frameOut fs, []) ∧
    processBuffer (fuel + 1) small = some ([], small) ∧
    processBuffer ((encodeFrames g).length + 1)
        (encodeFrames g ++ (encodeFrame f).take k) =
      some (List.map frameOut g, (encodeFrame f).take k) := by
  refine ⟨?_, ?_, ?_⟩
  · exact feedChunks_frames cs fs [] hv (Or.inl (by simp [rtHeaderSize]))
      (by simpa using heq)
  · exact processBuffer_incomplete fuel small (Or.inl (by simpa [rtHeaderSize] using hsmall))
  · exact processBuffer_frames g _ _ hg (incomplete_take_encodeFrame f k hf hk)
      (by have := length_le_length_encodeFrames g; omega)

/-- Witness for C2: two frames (a Command frame with body byte 65 and an XML
frame with body bytes 66, 67) split across three chunks at positions that cut
both headers, plus a 5-byte prefix of the second frame left buffered behind an
already-complete first frame, and a 3-byte buffer. -/
theorem c2_frame_reader_split_invariance_witness :
    ((∀ x ∈ ([⟨1, [65]⟩, ⟨2, [66, 67]⟩] : List Frame), validFrame x) ∧
      joinChunks [[9, 0], [0, 0, 1, 0, 0, 0, 65, 10, 0], [0, 0, 2, 0, 0, 0, 66, 67]] =
        encodeFrames [⟨1, [65]⟩, ⟨2, [66, 67]⟩] ∧
      (∀ x ∈ ([⟨1, [65]⟩] : List Frame), validFrame x) ∧
      validFrame ⟨2, [66, 67]⟩ ∧
      5 < (encodeFrame ⟨2, [66, 67]⟩).length ∧
      ([7, 7, 7] : List Nat).length < 8) ∧
    (feedChunks [[9, 0], [0, 0, 1, 0, 0, 0, 65, 10, 0], [0, 0, 2, 0, 0, 0, 66, 67]] [] =
        some (List.map frameOut [⟨1, [65]⟩, ⟨2, [66, 67]⟩], []) ∧
      processBuffer (0 + 1) [7, 7, 7] = some ([], [7, 7, 7]) ∧
      processBuffer ((encodeFrames [⟨1, [65]⟩]).length + 1)
          (encodeFrames [⟨1, [65]⟩] ++ (encodeFrame ⟨2, [66, 67]⟩).take 5) =
        some (List.map frameOut [⟨1, [65]⟩], (encodeFrame ⟨2, [66, 67]⟩).take 5)) :=
  ⟨⟨by decide, by decide, by decide, by decide, by decide, by decide⟩,
    c2_frame_reader_split_invariance
      [[9, 0], [0, 0, 1, 0, 0, 0, 65, 10, 0], [0, 0, 2, 0, 0, 0, 66, 67]]
      [⟨1, [65]⟩, ⟨2, [66, 67]⟩] [⟨1, [65]⟩] ⟨2, [66, 67]⟩ 5 [7, 7, 7] 0
      (by decide) (by decide) (by decide) (by decide) (by decide) (by decide)⟩

/-- C4: refuted — `_process_buffer` has no check against a declared
`total_size` below the 8-byte header size. On a frame header declaring
`total_size = 0` (type code 1) the loop makes no progress and never
terminates, modelled by the fuelled loop returning `none` for every fuel
bound; and on a header declaring `total_size = 4` the reader silently
mis-splits the byte stream (here emitting a bogus 4-byte frame of type 1 and
then a bogus 1-byte frame of type 16 from the remaining bytes) instead of
rejecting the stream as a framing error. -/
theorem c4_small_total_size_not_rejected :
    (∀ fuel, processBuffer fuel (u32le 0 ++ u32le 1) = none) ∧
    processBuffer 3 (u32le 4 ++ u32le 1 ++ (u32le 16 ++ u32le 2)) =
      some ([(1, [4, 0, 0, 0]), (16, [1])], [0, 0, 0, 16, 0, 0, 0, 2, 0, 0, 0]) := by
  constructor
  · intro fuel
    induction fuel with
    | zero => rfl
    | succ n ih =>
      have h : processBuffer (n + 1) (u32le 0 ++ u32le 1) =
          match processBuffer n (u32le 0 ++ u32le 1) with
          | none => none
          | some (out, rest) => some ((1, ([] : List Nat)) :: out, rest) := rfl
      rw [h, ih]
  · decide

/-- C1: dispatch obeys the correlation-queue discipline. An Error, Command or
XML frame consumes exactly the head entry of the callback queue — invoking a
real continuation with the response, forwarding to the generic
`response_received` sink when the head is a `None` placeholder or the queue is
empty (an Error frame additionally emits `error_occurred` first); Data and
Event frames never consume a queue entry; and sending command A then command B
and then receiving two Command responses delivers the first response to the
continuation of A and the second to the continuation of B. -/
theorem c1_correlation_queue_discipline
    (u : ProtState) (data dA dB cA cB : List Nat) (cb cbA cbB : Nat)
    (rest : List (Option Nat)) (s : ProtState)
    (hq0 : s.callback_queue = []) (hc : s.connected_flag = true)
    (hA : rtHeaderSize + cA.length + 1 < 4294967296)
    (hB : rtHeaderSize + cB.length + 1 < 4294967296) :
    (∀ t, t = packetErrorValue ∨ t = packetCommandValue ∨ t = packetXMLValue →
      (u.callback_queue = some cb :: rest →
        handlePacket u t data =
          Except.ok ({ u with callback_queue := rest },
            errorPrefixOutputs t data ++
              [Output.callbackInvoked cb (textResponse t data)])) ∧
      (u.callback_queue = none :: rest →
        handlePacket u t data =
          Except.ok ({ u with callback_queue := rest },
            errorPrefixOutputs t data ++
              [Output.responseSignal (textResponse t data)])) ∧
      (u.callback_queue = [] →
        handlePacket u t data =
          Except.ok ({ u with callback_queue := [] },
            errorPrefixOutputs t data ++
              [Output.responseSignal (textResponse t data)]))) ∧
    (∀ s2 outs, handlePacket u packetDataValue data = Except.ok (s2, outs) →
      s2.callback_queue = u.callback_queue) ∧
    (∀ s2 outs, handlePacket u packetEventValue data = Except.ok (s2, outs) →
      s2.callback_queue = u.callback_queue) ∧
    (∃ w1 w2,
      sendCommand s cA (some cbA) =
        Except.ok ({ s with callback_queue := [some cbA] }, w1) ∧
      sendCommand { s with callback_queue := [some cbA] } cB (some cbB) =
        Except.ok ({ s with callback_queue := [some cbA, some cbB] }, w2) ∧
      handlePacket { s with callback_queue := [some cbA, some cbB] }
          packetCommandValue dA =
        Except.ok ({ s with callback_queue := [some cbB] },
          [Output.callbackInvoked cbA (textResponse packetCommandValue dA)]) ∧
      handlePacket { s with callback_queue := [some cbB] }
          packetCommandValue dB =
        Except.ok ({ s with callback_queue := [] },
          [Output.callbackInvoked cbB (textResponse packetCommandValue dB)])) := by
  refine ⟨?_, ?_, ?_, ?_⟩
  · intro t ht
    rcases ht with rfl | rfl | rfl <;>
      refine ⟨fun hq => ?_, fun hq => ?_, fun hq => ?_⟩ <;>
        simp [handlePacket, qrtPacketTypeOfCode, packetErrorValue,
          packetCommandValue, packetXMLValue, deliverCallback, textResponse,
          errorPrefixOutputs, hq]
  · intro s2 outs h
    have hcomp : handlePacket u packetDataValue data =
        Except.ok (u, [Output.responseSignal
          ⟨packetDataValue, RData.packet (data.drop rtHeaderSize)⟩]) := by
      simp [handlePacket, qrtPacketTypeOfCode, packetErrorValue,
        packetCommandValue, packetXMLValue, packetDataValue]
    rw [hcomp] at h
    injection h with h2
    injection h2 with h3 h4
    rw [← h3]
  · intro s2 outs h
    cases hd : data.drop rtHeaderSize with
    | nil =>
      have hcomp : handlePacket u packetEventValue data = Except.ok (u, []) := by
        simp [handlePacket, qrtPacketTypeOfCode, packetErrorValue,
          packetCommandValue, packetXMLValue, packetDataValue, packetEventValue, hd]
      rw [hcomp] at h
      injection h with h2
      injection h2 with h3 h4
      rw [← h3]
    | cons c tl =>
      by_cases hvc : qrtEventValid c = true
      · have hcomp : handlePacket u packetEventValue data =
            Except.ok (u, [Output.responseSignal ⟨packetEventValue, RData.event c⟩]) := by
          simp [handlePacket, qrtPacketTypeOfCode, packetErrorValue,
            packetCommandValue, packetXMLValue, packetDataValue, packetEventValue,
            hd, hvc]
        rw [hcomp] at h
        injection h with h2
        injection h2 with h3 h4
        rw [← h3]
      · have hcomp : handlePacket u packetEventValue data =
            Except.error PyErr.valueError := by
          simp [handlePacket, qrtPacketTypeOfCode, packetErrorValue,
            packetCommandValue, packetXMLValue, packetDataValue, packetEventValue,
            hd, hvc]
        rw [hcomp] at h
        injection h
  · refine ⟨[Output.socketWrite (u32le (rtHeaderSize + cA.length + 1) ++
        u32le packetCommandValue ++ cA ++ [0])],
      [Output.socketWrite (u32le (rtHeaderSize + cB.length + 1) ++
        u32le packetCommandValue ++ cB ++ [0])], ?_, ?_, ?_, ?_⟩
    · simp [sendCommand, hc, hq0, hA]
    · simp [sendCommand, hc, hB]
    · simp [handlePacket, qrtPacketTypeOfCode, packetErrorValue,
        packetCommandValue, packetXMLValue, deliverCallback, textResponse]
    · simp [handlePacket, qrtPacketTypeOfCode, packetErrorValue,
        packetCommandValue, packetXMLValue, deliverCallback, textResponse]

/-- Witness for C1: a protocol state with one queued callback (id 5), and the
A-then-B scenario with commands 65 and 66 and callbacks 9 and 8. -/
theorem c1_correlation_queue_discipline_witness :
    (([] : List (Option Nat)) = [] ∧ (true : Bool) = true ∧
      rtHeaderSize + ([65] : List Nat).length + 1 < 4294967296 ∧
      rtHeaderSize + ([66] : List Nat).length + 1 < 4294967296) ∧
    ((∀ t, t = packetErrorValue ∨ t = packetCommandValue ∨ t = packetXMLValue →
      (([some 5] : List (Option Nat)) = some 5 :: [] →
        handlePacket ⟨[], [some 5], true⟩ t [8, 0, 0, 0, 1, 0, 0, 0] =
          Except.ok (⟨[], [], true⟩,
            errorPrefixOutputs t [8, 0, 0, 0, 1, 0, 0, 0] ++
              [Output.callbackInvoked 5 (textResponse t [8, 0, 0, 0, 1, 0, 0, 0])])) ∧
      (([some 5] : List (Option Nat)) = none :: [] →
        handlePacket ⟨[], [some 5], true⟩ t [8, 0, 0, 0, 1, 0, 0, 0] =
          Except.ok (⟨[], [], true⟩,
            errorPrefixOutputs t [8, 0, 0, 0, 1, 0, 0, 0] ++
              [Output.responseSignal (textResponse t [8, 0, 0, 0, 1, 0, 0, 0])])) ∧
      (([some 5] : List (Option Nat)) = [] →
        handlePacket ⟨[], [some 5], true⟩ t [8, 0, 0, 0, 1, 0, 0, 0] =
          Except.ok (⟨[], [], true⟩,
            errorPrefixOutputs t [8, 0, 0, 0, 1, 0, 0, 0] ++
              [Output.responseSignal (textResponse t [8, 0, 0, 0, 1, 0, 0, 0])]))) ∧
    (∀ s2 outs,
      handlePacket ⟨[], [some 5], true⟩ packetDataValue [8, 0, 0, 0, 1, 0, 0, 0] =
        Except.ok (s2, outs) → s2.callback_queue = [some 5]) ∧
    (∀ s2 outs,
      handlePacket ⟨[], [some 5], true⟩ packetEventValue [8, 0, 0, 0, 1, 0, 0, 0] =
        Except.ok (s2, outs) → s2.callback_queue = [some 5]) ∧
    (∃ w1 w2,
      sendCommand ⟨[], [], true⟩ [65] (some 9) =
        Except.ok (⟨[], [some 9], true⟩, w1) ∧
      sendCommand ⟨[], [some 9], true⟩ [66] (some 8) =
        Except.ok (⟨[], [some 9, some 8], true⟩, w2) ∧
      handlePacket ⟨[], [some 9, some 8], true⟩ packetCommandValue
          [11, 0, 0, 0, 1, 0, 0, 0, 79, 107, 0] =
        Except.ok (⟨[], [some 8], true⟩,
          [Output.callbackInvoked 9 (textResponse packetCommandValue
            [11, 0, 0, 0, 1, 0, 0, 0, 79, 107, 0])]) ∧
      handlePacket ⟨[], [some 8], true⟩ packetCommandValue
          [10, 0, 0, 0, 1, 0, 0, 0, 78, 0] =
        Except.ok (⟨[], [], true⟩,
          [Output.callbackInvoked 8 (textResponse packetCommandValue
            [10, 0, 0, 0, 1, 0, 0, 0, 78, 0])]))) :=
  ⟨⟨rfl, rfl, by decide, by decide⟩,
    c1_correlation_queue_discipline ⟨[], [some 5], true⟩ [8, 0, 0, 0, 1, 0, 0, 0]
      [11, 0, 0, 0, 1, 0, 0, 0, 79, 107, 0] [10, 0, 0, 0, 1, 0, 0, 0, 78, 0]
      [65] [66] 5 9 8 [] ⟨[], [], true⟩ rfl rfl (by decide) (by decide)⟩

/-- C3: refuted — a complete frame whose type code lies outside the
packet-type enumeration does not complete quietly: the enum conversion at
qt_protocol.py line 164 raises `ValueError` before any dispatch, so the frame
is not ignored and the error propagates out of `_handle_packet` (the
warning-only branch of line 201 is reachable only for member codes without a
dispatch arm). The queue is indeed not consumed, but only because the
exception aborts handling. -/
theorem c3_unknown_packet_type_raises :
    handlePacket ⟨[], [some 7], true⟩ 42 (u32le 8 ++ u32le 42) =
      Except.error PyErr.valueError ∧
    ∀ (s : ProtState) (data : List Nat),
      handlePacket s 42 data = Except.error PyErr.valueError := by
  constructor
  · decide
  · intro s data
    simp [handlePacket, qrtPacketTypeOfCode]

/-- C10: an Event frame whose body is empty (only the 8-byte header) is
silently dropped by `_handle_packet`: no output is emitted, no error is
raised, and the callback queue is unchanged. -/
theorem c10_empty_event_frame_dropped (s : ProtState) (data : List Nat)
    (h : data.length ≤ 8) :
    handlePacket s packetEventValue data = Except.ok (s, []) := by
  have hd : data.drop rtHeaderSize = [] :=
    List.drop_eq_nil_of_le (by simpa [rtHeaderSize] using h)
  simp [handlePacket, qrtPacketTypeOfCode, packetErrorValue, packetCommandValue,
    packetXMLValue, packetDataValue, packetEventValue, hd]

/-- Witness for C10: an Event frame consisting of exactly the 8-byte header,
handled in a state with a queued callback that stays untouched. -/
theorem c10_empty_event_frame_dropped_witness :
    ([8, 0, 0, 0, 6, 0, 0, 0] : List Nat).length ≤ 8 ∧
    handlePacket ⟨[], [some 3], true⟩ packetEventValue [8, 0, 0, 0, 6, 0, 0, 0] =
      Except.ok (⟨[], [some 3], true⟩, []) :=
  ⟨by decide, c10_empty_event_frame_dropped ⟨[], [some 3], true⟩
    [8, 0, 0, 0, 6, 0, 0, 0] (by decide)⟩

/-- C9: while connected, every command and every XML string is written to the
socket as exactly an 8-byte header of two little-endian u32 fields — the total
size (8-byte header plus UTF-8 body plus one NUL terminator) and the packet
type code — followed by the UTF-8 body bytes and a single terminating NUL
byte (the body being the UTF-8 encoding of the text). -/
theorem c9_wire_format (s : ProtState) (cmd xml : List Nat) (cb cb2 : Option Nat)
    (hc : s.connected_flag = true)
    (h1 : rtHeaderSize + cmd.length + 1 < 4294967296)
    (h2 : rtHeaderSize + xml.length + 1 < 4294967296) :
    sendCommand s cmd cb =
      Except.ok ({ s with callback_queue := s.callback_queue ++ [cb] },
        [Output.socketWrite (u32le (rtHeaderSize + cmd.length + 1) ++
          u32le packetCommandValue ++ cmd ++ [0])]) ∧
    sendXml s xml cb2 =
      Except.ok ({ s with callback_queue := s.callback_queue ++ [cb2] },
        [Output.socketWrite (u32le (rtHeaderSize + xml.length + 1) ++
          u32le packetXMLValue ++ xml ++ [0])]) := by
  constructor
  · simp [sendCommand, hc, h1]
  · have hlen : rtHeaderSize + (xml ++ [0]).length = rtHeaderSize + xml.length + 1 := by
      simp
      omega
    simp only [sendXml, hc, Bool.true_eq_false, if_false, hlen]
    rw [if_pos h2]
    simp [List.append_assoc]

/-- Witness for C9: a 3-byte command and a 2-byte XML body sent from a
connected state with one queued entry. -/
theorem c9_wire_format_witness :
    ((true : Bool) = true ∧
      rtHeaderSize + ([71, 72, 73] : List Nat).length + 1 < 4294967296 ∧
      rtHeaderSize + ([60, 62] : List Nat).length + 1 < 4294967296) ∧
    (sendCommand ⟨[], [none], true⟩ [71, 72, 73] (some 2) =
      Except.ok (⟨[], [none, some 2], true⟩,
        [Output.socketWrite (u32le (rtHeaderSize + ([71, 72, 73] : List Nat).length + 1) ++
          u32le packetCommandValue ++ [71, 72, 73] ++ [0])]) ∧
    sendXml ⟨[], [none], true⟩ [60, 62] none =
      Except.ok (⟨[], [none, none], true⟩,
        [Output.socketWrite (u32le (rtHeaderSize + ([60, 62] : List Nat).length + 1) ++
          u32le packetXMLValue ++ [60, 62] ++ [0])])) :=
  ⟨⟨rfl, by decide, by decide⟩,
    c9_wire_format ⟨[], [none], true⟩ [71, 72, 73] [60, 62] (some 2) none rfl
      (by decide) (by decide)⟩

/-- C5 counterexample: in a disconnected state, `send_command` and `send_xml`
return normally with no signalled error of any kind — the result is a plain
`ok` with an empty output list (nothing written, no signal emitted, nothing
queued), refuting the claim that the caller receives a synchronous error. -/
theorem c5_counterexample_silent_return :
    sendCommand ⟨[], [], false⟩ [113] (some 1) = Except.ok (⟨[], [], false⟩, []) ∧
    sendXml ⟨[], [], false⟩ [113] (some 2) = Except.ok (⟨[], [], false⟩, []) := by
  constructor
  · decide
  · decide

/-- C5 as amended: when `send_command` or `send_xml` is called while not
connected, the call is a silent no-op apart from a log line: it returns
normally without signalling any error to the caller, writes nothing to the
socket, and appends no entry to the callback queue. -/
theorem c5_send_not_connected_silent_noop (s : ProtState) (cmd : List Nat)
    (cb : Option Nat) (h : s.connected_flag = false) :
    sendCommand s cmd cb = Except.ok (s, []) ∧
    sendXml s cmd cb = Except.ok (s, []) := by
  constructor
  · simp [sendCommand, h]
  · simp [sendXml, h]

/-- Witness for amended C5: sending from the initial (disconnected) state. -/
theorem c5_send_not_connected_silent_noop_witness :
    ((false : Bool) = false ∧
      sendCommand ⟨[], [], false⟩ [103] none = Except.ok (⟨[], [], false⟩, []) ∧
      sendXml ⟨[], [], false⟩ [103] none = Except.ok (⟨[], [], false⟩, [])) :=
  ⟨rfl, c5_send_not_connected_silent_noop ⟨[], [], false⟩ [103] none rfl⟩

/-- C6 counterexample: registering an any-event waiter (callback 1) and then a
waiter for event 3 (callback 2) leaves only the second registered — the first
is overwritten — so emitting event 3 invokes only callback 2; callback 1 is
never resolved, refuting the claim that both concurrent waiters resolve. -/
theorem c6_counterexample_second_waiter_overwrites :
    onEventReceived
        (awaitEvent (awaitEvent ⟨none, none⟩ none 1 (some 1)) (some 3) 1 (some 2)) 3 =
      Except.ok (⟨none, none⟩, [Output.eventCallback 2 3]) := by
  decide

/-- C6 as amended: at most one event waiter can be pending — `await_event`
overwrites any previous registration, so only the latest waiter exists. When
an event with a valid code arrives, if the pending expected event is unset or
equals the observed code, the stored callback (if any) is invoked with the
code and the waiter slot is cleared; otherwise the waiter is left unchanged. -/
theorem c6_single_waiter_slot (c : ConnState) (e e2 : Option Nat) (t t2 : Nat)
    (cb cb2 : Option Nat) (ev : Nat) (hev : qrtEventValid ev = true) :
    awaitEvent (awaitEvent c e t cb) e2 t2 cb2 = awaitEvent c e2 t2 cb2 ∧
    (c.expected_event = none ∨ c.expected_event = some ev →
      onEventReceived c ev =
        Except.ok (⟨none, none⟩,
          match c.event_callback with
          | some k => [Output.eventCallback k ev]
          | none => [])) ∧
    (¬ (c.expected_event = none ∨ c.expected_event = some ev) →
      onEventReceived c ev = Except.ok (c, [])) := by
  refine ⟨rfl, fun hm => ?_, fun hm => ?_⟩
  · rw [onEventReceived, if_pos hev, if_pos hm]
    cases c.event_callback <;> rfl
  · rw [onEventReceived, if_pos hev, if_neg hm]

/-- Witness for amended C6: a pending any-event waiter with callback 4
receiving event 2, after overwriting checks on concrete registrations. -/
theorem c6_single_waiter_slot_witness :
    (qrtEventValid 2 = true) ∧
    (awaitEvent (awaitEvent ⟨none, some 4⟩ (some 5) 30 (some 9)) none 30 (some 4) =
        awaitEvent ⟨none, some 4⟩ none 30 (some 4) ∧
      ((⟨none, some 4⟩ : ConnState).expected_event = none ∨
          (⟨none, some 4⟩ : ConnState).expected_event = some 2 →
        onEventReceived ⟨none, some 4⟩ 2 =
          Except.ok (⟨none, none⟩,
            match (⟨none, some 4⟩ : ConnState).event_callback with
            | some k => [Output.eventCallback k 2]
            | none => [])) ∧
      (¬ ((⟨none, some 4⟩ : ConnState).expected_event = none ∨
          (⟨none, some 4⟩ : ConnState).expected_event = some 2) →
        onEventReceived ⟨none, some 4⟩ 2 = Except.ok (⟨none, some 4⟩, []))) :=
  ⟨by decide, c6_single_waiter_slot ⟨none, some 4⟩ (some 5) none 30 30 (some 9)
    (some 4) 2 (by decide)⟩

/-- C7: refuted in spirit by the code — `await_event` stores the waiter and
ignores its `timeout` argument entirely (qt_qrt.py line 146 leaves timeout
handling unimplemented, contradicting the docstring of the method): the
resulting state is identical for any two timeout values, no timer exists, and
the registered entry simply stays pending. -/
theorem c7_timeout_argument_ignored (c : ConnState) (e : Option Nat)
    (t1 t2 : Nat) (cb : Option Nat) :
    awaitEvent c e t1 cb = awaitEvent c e t2 cb ∧
    (awaitEvent c e t1 cb).event_callback = cb ∧
    (awaitEvent c e t1 cb).expected_event = e := by
  exact ⟨rfl, rfl, rfl⟩

/-- C8 counterexample: disconnecting with two pending queue entries
(callbacks 1 and 2) and a pending event waiter (callback 3) emits only the
`disconnected` signal; all three entries remain pending and none receives a
connection-closed error, refuting the claim. -/
theorem c8_counterexample_pending_left_hanging :
    onDisconnected ⟨[], [some 1, some 2], true⟩ ⟨none, some 3⟩ =
      ((⟨[], [some 1, some 2], false⟩, ⟨none, some 3⟩),
        [Output.disconnectedSignal]) := by
  decide

/-- C8 as amended: on disconnect the connected flag is cleared and the
`disconnected` signal is emitted and forwarded, and nothing else happens:
pending callback-queue entries and the pending event waiter are left exactly
as they were and receive no connection-closed error. -/
theorem c8_disconnect_drains_nothing (p : ProtState) (c : ConnState) :
    (onDisconnected p c).1.1.callback_queue = p.callback_queue ∧
    (onDisconnected p c).1.1.buffer = p.buffer ∧
    (onDisconnected p c).1.1.connected_flag = false ∧
    (onDisconnected p c).1.2 = c ∧
    (onDisconnected p c).2 = [Output.disconnectedSignal] :=
  ⟨rfl, rfl, rfl, rfl, rfl⟩
